import Mathlib

/-!
Shallow embedding of the fluidkeys team roster synchronization code:
the roster update validator (package `team`), and the sync orchestration
in package `fk` (`teamFetch`, `doUpdateTeam`, `fetchAndUpdateRoster`,
`fetchTeamKeys`, `processRequestsToJoinTeam`, `fetchAdminPublicKeys`,
`discoverPublicKey`, `verifyBrandNewRoster`).

Go errors are modelled as `Option String` (`none` = nil error, `some msg`
= the error with that message) or `Except String α` for functions that
return a value or an error.  External collaborators (the HTTP API
client, the GnuPG keyring, the on-disk roster store, the password
prompt, and the `team` package helpers that are not among the sources)
are modelled as oracle fields of explicit environment structures; the
control flow of the embedded functions follows the Go source line by
line.  Side effects that matter to the stated properties (writes to the
trusted roster store, deletion of join-request records, roster fetches,
admin-key resolution) are made observable as event traces returned
alongside the result.
-/

/-- A member of a team: `team.Person` with its `Email`, `Fingerprint`
and `IsAdmin` fields.  Fingerprints and emails are kept as strings. -/
structure Person where
  Email : String
  Fingerprint : String
  IsAdmin : Bool
deriving DecidableEq, Repr

/-- Embedding of `team.Team`: UUID, Name and the list of People. -/
structure Team where
  UUID : String
  Name : String
  People : List Person
deriving DecidableEq, Repr

/-- Modelled from the spec: `team.Team.Admins` (the `team` package
method used by `fetchAdminPublicKeys`, not among the sources) returns
the members of the team that carry the admin flag. -/
def Team.Admins (t : Team) : List Person :=
  t.People.filter (fun p => p.IsAdmin)

/-- Embedding of `validateTeamUUID`: error iff the UUID changed. -/
def validateTeamUUID (before after : Team) : Option String :=
  if before.UUID ≠ after.UUID then some "can't change team UUID" else none

/-- Embedding of `validateTeamNameCantChange`: error iff the Name changed. -/
def validateTeamNameCantChange (before after : Team) : Option String :=
  if before.Name ≠ after.Name then some "can't change team name" else none

/-- Embedding of `validateIAmAdmin`: an unimplemented stub that unconditionally
returns the error "not implemented", ignoring all of its arguments. -/
def validateIAmAdmin (_before _after : Team) (_me : Person) : Option String :=
  some "not implemented"

/-- Embedding of `team.ValidateUpdate`: sequential fail-fast checks, returning the
first error: UUID immutability, then Name immutability, then the
(stubbed) signer-is-admin check. -/
def ValidateUpdate (before after : Team) (me : Person) : Option String :=
  match validateTeamUUID before after with
  | some e => some e
  | none =>
    match validateTeamNameCantChange before after with
    | some e => some e
    | none => validateIAmAdmin before after me

/-- An OpenPGP key (`pgpkey.PgpKey`), abstracted to its identifying
string; none of the embedded control flow looks inside a key. -/
abbrev PgpKey := String

/-- Observable steps of admin-key resolution: a local GnuPG keyring
lookup (`loadPgpKey`) or a remote fetch by fingerprint
(`client.GetPublicKeyByFingerprint`). -/
inductive KeyEvent where
  | localLookup (fingerprint : String)
  | remoteFetch (fingerprint : String)
deriving DecidableEq, Repr

/-- Oracles for the two ways of obtaining a public key by fingerprint:
the local GnuPG keyring and the remote Fluidkeys API. -/
structure KeyEnv where
  loadPgpKey : String → Except String PgpKey
  getPublicKeyByFingerprint : String → Except String PgpKey

/-- Embedding of `fk.discoverPublicKey`: try the local keyring first and return its
key on success; only on local failure fall back to the remote fetch by
fingerprint; if both fail, return the "failed multiple attempts" error.
The trace records the lookups actually performed, in order. -/
def discoverPublicKey (env : KeyEnv) (fingerprint : String) :
    Except String PgpKey × List KeyEvent :=
  match env.loadPgpKey fingerprint with
  | .ok key => (.ok key, [.localLookup fingerprint])
  | .error _ =>
    match env.getPublicKeyByFingerprint fingerprint with
    | .ok key => (.ok key, [.localLookup fingerprint, .remoteFetch fingerprint])
    | .error _ =>
      (.error ("failed multiple attempts to find get public key for " ++ fingerprint),
       [.localLookup fingerprint, .remoteFetch fingerprint])

/-- The loop body of `fk.fetchAdminPublicKeys` over the list of admins:
resolve each admin's key via `discoverPublicKey`, aborting with the
first resolution error (no partial key list is ever returned). -/
def fetchAdminPublicKeysLoop (env : KeyEnv) :
    List Person → Except String (List PgpKey) × List KeyEvent
  | [] => (.ok [], [])
  | p :: rest =>
    match discoverPublicKey env p.Fingerprint with
    | (.error e, evs) => (.error e, evs)
    | (.ok key, evs) =>
      match fetchAdminPublicKeysLoop env rest with
      | (.error e, evs2) => (.error e, evs ++ evs2)
      | (.ok keys, evs2) => (.ok (key :: keys), evs ++ evs2)

/-- Embedding of `fk.fetchAdminPublicKeys`: resolve the key of every admin of the
team, all-or-nothing. -/
def fetchAdminPublicKeys (env : KeyEnv) (t : Team) :
    Except String (List PgpKey) × List KeyEvent :=
  fetchAdminPublicKeysLoop env t.Admins

/-- Outcome of `client.GetTeamRoster`: the roster and its detached
signature, or the distinguished Forbidden error (`api.ErrForbidden`,
whose message is "Forbidden"), or some other error. -/
inductive RosterFetchResult where
  | ok (roster signature : String)
  | forbidden
  | failed (e : String)
deriving DecidableEq, Repr

/-- Observable steps of `fk.fetchAndUpdateRoster`: resolving the admin
keys of the prior trusted team, verifying a fetched roster+signature,
and saving a roster+signature to the trusted on-disk store. -/
inductive FetchEvent where
  | resolveAdminKeys
  | verify (roster signature : String)
  | save (roster signature : String)
deriving DecidableEq, Repr

/-- Collaborator oracles of `fk.fetchAndUpdateRoster` for one
membership: the API roster fetch for this team, the serialized roster of
the locally trusted team (`t.Roster()`, whose error the code discards),
the keyring/API key lookups, `team.VerifyRoster`, `team.Directory`,
`team.RosterSaver.Save` and `team.Load`. -/
structure FetchEnv where
  getTeamRoster : RosterFetchResult
  rosterOf : Team → String
  keyEnv : KeyEnv
  verifyRoster : String → String → List PgpKey → Option String
  teamDirectory : Team → Except String String
  saveRoster : String → String → String → Option String
  loadTeam : String → String → Except String Team

/-- Embedding of `fk.fetchAndUpdateRoster`: fetch the remote roster+signature; if it
equals the locally trusted roster, return the existing team unchanged;
otherwise resolve the admin keys of the (prior) trusted team, verify the
fetched roster's signature against them, and only then save the new
roster+signature to the trusted store and load the updated team.  Every
error aborts with no further steps. -/
def fetchAndUpdateRoster (env : FetchEnv) (t : Team) :
    Except String Team × List FetchEvent :=
  match env.getTeamRoster with
  | .forbidden => (.error ("error downloading team roster: " ++ "Forbidden"), [])
  | .failed e => (.error ("error downloading team roster: " ++ e), [])
  | .ok roster signature =>
    if env.rosterOf t = roster then
      (.ok t, [])
    else
      match (fetchAdminPublicKeys env.keyEnv t).1 with
      | .error e =>
        (.error ("error getting team admin public keys: " ++ e), [.resolveAdminKeys])
      | .ok adminKeys =>
        match env.verifyRoster roster signature adminKeys with
        | some e =>
          (.error ("couldn't validate signature on updated roster: " ++ e),
           [.resolveAdminKeys, .verify roster signature])
        | none =>
          match env.teamDirectory t with
          | .error e => (.error e, [.resolveAdminKeys, .verify roster signature])
          | .ok dir =>
            match env.saveRoster dir roster signature with
            | some e =>
              (.error e,
               [.resolveAdminKeys, .verify roster signature, .save roster signature])
            | none =>
              match env.loadTeam roster signature with
              | .error e =>
                (.error e,
                 [.resolveAdminKeys, .verify roster signature, .save roster signature])
              | .ok updated =>
                (.ok updated,
                 [.resolveAdminKeys, .verify roster signature, .save roster signature])

/-- Embedding of `fk.fetchTeamKeys`: loop over the team's members fetching and
importing each one's key; the Go loop assigns each outcome to the single
named return value `err`, so the returned error is the outcome of the
last member only (nil for an empty team). -/
def fetchTeamKeys (t : Team) (keyResult : String → Option String) : Option String :=
  t.People.foldl (fun _ p => keyResult p.Fingerprint) none

/-- The per-membership inputs of `fk.doUpdateTeam`: the locally stored
team and member, the outcome of unlocking the member's private key, the
environment of the roster update, and the per-fingerprint outcome of
`getAndImportKeyToGpg`. -/
structure MembershipEnv where
  team : Team
  me : Person
  unlockResult : Except String PgpKey
  fetchEnv : FetchEnv
  keyResult : String → Option String

/-- Embedding of `fk.doUpdateTeam`: try to unlock the member's key and update the
roster (on success the updated team replaces the local one; on failure
the error is recorded and the old team is kept), then fetch the team's
member keys; a key-fetch error replaces the recorded error, otherwise
the recorded roster-phase error (if any) is returned. -/
def doUpdateTeam (m : MembershipEnv) : Option String :=
  let rosterPhase : Option String × Team :=
    match m.unlockResult with
    | .error e => (some e, m.team)
    | .ok _ =>
      match (fetchAndUpdateRoster m.fetchEnv m.team).1 with
      | .error e => (some e, m.team)
      | .ok updated => (none, updated)
  match fetchTeamKeys rosterPhase.2 m.keyResult with
  | some e => some e
  | none => rosterPhase.1

/-- Embedding of `team.RequestToJoinTeam`: a locally stored pending request to join a
team.  `RequestedAt` is measured in hours on an absolute scale, so the
Go condition `time.Now().Sub(RequestedAt) > 7*24*time.Hour` reads
`now - RequestedAt > 168`. -/
structure RequestToJoinTeam where
  UUID : String
  TeamUUID : String
  TeamName : String
  Fingerprint : String
  Email : String
  RequestedAt : Int
deriving DecidableEq, Repr

/-- Observable steps of `fk.processRequestsToJoinTeam` per request: the
user-visible expiry notice, a roster fetch from the API, and an invocation
of `db.DeleteRequestToJoinTeam` for the local request record. -/
inductive JoinEvent where
  | expiryNotice (teamUUID : String)
  | fetchedRoster (teamUUID : String)
  | deletedRequest (teamUUID fingerprint : String)
deriving DecidableEq, Repr

/-- Collaborator oracles of `fk.processRequestsToJoinTeam`: the stored
requests, the current time (hours), private-key unlocking, the roster
fetch (by requester key and team UUID), `team.Load`, the key lookups and
`team.VerifyRoster` used by `verifyBrandNewRoster`, `team.Directory`,
`team.RosterSaver.Save`, and the local `db.DeleteRequestToJoinTeam`. -/
structure JoinEnv where
  requestsResult : Except String (List RequestToJoinTeam)
  now : Int
  loadPrivateKey : String → Except String PgpKey
  getTeamRoster : PgpKey → String → RosterFetchResult
  loadTeam : String → String → Except String Team
  keyEnv : KeyEnv
  verifyRoster : String → String → List PgpKey → Option String
  teamDirectory : Team → Except String String
  saveRoster : String → String → String → Option String
  deleteRequest : String → String → Option String

/-- Embedding of `fk.verifyBrandNewRoster`: resolve the admin keys of the team parsed
from the fetched roster itself (bootstrap: the requester has no prior
trusted baseline) and verify the roster against them. -/
def verifyBrandNewRoster (kenv : KeyEnv)
    (verifyRoster : String → String → List PgpKey → Option String)
    (t : Team) (roster signature : String) : Option String :=
  match (fetchAdminPublicKeys kenv t).1 with
  | .error e => some e
  | .ok adminKeys => verifyRoster roster signature adminKeys

/-- One iteration of the loop in `fk.processRequestsToJoinTeam`, mapping
the `returnError` accumulator before the iteration to its value after,
together with the iteration's events.  In the expiry branch the Go
source executes `returnError = err` where `err` is the function-scope
error of the earlier (succeeded) `user.RequestsToJoinTeams()` call - the
declarations of `err` inside the loop body come later in the block - so
the accumulator is overwritten with nil, which this model reproduces. -/
def processOneRequest (env : JoinEnv) (returnError : Option String)
    (r : RequestToJoinTeam) : Option String × List JoinEvent :=
  if 168 < env.now - r.RequestedAt then
    (none, [.expiryNotice r.TeamUUID, .deletedRequest r.TeamUUID r.Fingerprint])
  else
    match env.loadPrivateKey r.Fingerprint with
    | .error e => (some e, [])
    | .ok key =>
      match env.getTeamRoster key r.TeamUUID with
      | .forbidden => (returnError, [.fetchedRoster r.TeamUUID])
      | .failed e => (some e, [.fetchedRoster r.TeamUUID])
      | .ok roster signature =>
        match env.loadTeam roster signature with
        | .error e => (some e, [.fetchedRoster r.TeamUUID])
        | .ok t =>
          match verifyBrandNewRoster env.keyEnv env.verifyRoster t roster signature with
          | some e => (some e, [.fetchedRoster r.TeamUUID])
          | none =>
            match env.teamDirectory t with
            | .error e => (some e, [.fetchedRoster r.TeamUUID])
            | .ok dir =>
              match env.saveRoster dir roster signature with
              | some e => (some e, [.fetchedRoster r.TeamUUID])
              | none =>
                match env.deleteRequest r.TeamUUID r.Fingerprint with
                | some e =>
                  (some e,
                   [.fetchedRoster r.TeamUUID,
                    .deletedRequest r.TeamUUID r.Fingerprint])
                | none =>
                  (returnError,
                   [.fetchedRoster r.TeamUUID,
                    .deletedRequest r.TeamUUID r.Fingerprint])

/-- Embedding of `fk.processRequestsToJoinTeam`: list the stored requests (an error
here is returned at once) and run the loop over them, starting with a
nil `returnError`. -/
def processRequestsToJoinTeam (env : JoinEnv) : Option String × List JoinEvent :=
  match env.requestsResult with
  | .error e => (some e, [])
  | .ok requests =>
    requests.foldl
      (fun acc r =>
        let step := processOneRequest env acc.1 r
        (step.1, acc.2 ++ step.2))
      (none, [])

/-- Embedding of `fk.teamFetch`: run the join-request pass, then update every
membership; `sawError` records whether either phase reported an error,
and the exit code is 1 when it did, 0 otherwise.  (An error listing the
memberships themselves panics in the source and is outside this model.) -/
def teamFetch (env : JoinEnv) (memberships : List MembershipEnv) : Nat :=
  let sawError0 := (processRequestsToJoinTeam env).1.isSome
  let sawError :=
    memberships.foldl (fun saw m => saw || (doUpdateTeam m).isSome) sawError0
  if sawError then 1 else 0

/-- A key environment for witnesses: the local keyring only knows
fingerprint "F1", the remote service only knows "F2". -/
def kenvW : KeyEnv where
  loadPgpKey := fun f => if f = "F1" then .ok "localKeyF1" else .error "not in gpg"
  getPublicKeyByFingerprint := fun f =>
    if f = "F2" then .ok "remoteKeyF2" else .error "404"

/-- A concrete team for witnesses: one admin whose key the local keyring
of `kenvW` knows. -/
def teamW : Team := ⟨"u1", "Acme", [⟨"a@x", "F1", true⟩]⟩

/-- A fetch environment in which the remote roster differs from the
trusted one and signature verification fails. -/
def fenvBadSig : FetchEnv where
  getTeamRoster := .ok "roster-v2" "sig-v2"
  rosterOf := fun _ => "roster-v1"
  keyEnv := kenvW
  verifyRoster := fun _ _ _ => some "openpgp: invalid signature"
  teamDirectory := fun _ => .ok "/home/u/.config/fluidkeys/teams/acme"
  saveRoster := fun _ _ _ => none
  loadTeam := fun _ _ => .error "unused"

/-- A fetch environment in which the remote roster equals the trusted
one byte for byte. -/
def fenvSame : FetchEnv where
  getTeamRoster := .ok "roster-v1" "sig-v1"
  rosterOf := fun _ => "roster-v1"
  keyEnv := kenvW
  verifyRoster := fun _ _ _ => some "never reached"
  teamDirectory := fun _ => .error "never reached"
  saveRoster := fun _ _ _ => some "never reached"
  loadTeam := fun _ _ => .error "never reached"

/-- A join environment with no stored requests, used when exercising
`teamFetch` on membership updates alone. -/
def jenvEmpty : JoinEnv where
  requestsResult := .ok []
  now := 1000
  loadPrivateKey := fun _ => .error "unused"
  getTeamRoster := fun _ _ => .forbidden
  loadTeam := fun _ _ => .error "unused"
  keyEnv := kenvW
  verifyRoster := fun _ _ _ => none
  teamDirectory := fun _ => .error "unused"
  saveRoster := fun _ _ _ => none
  deleteRequest := fun _ _ => none

/-- A two-member team whose first member's key fetch fails and whose
second succeeds. -/
def teamTwoW : Team := ⟨"u1", "Acme", [⟨"a@x", "F1", true⟩, ⟨"b@x", "F2", false⟩]⟩

/-- A membership for which the roster is unchanged and fetching the
first member's key fails while the second member's key fetch succeeds. -/
def membershipKeyFailW : MembershipEnv where
  team := teamTwoW
  me := ⟨"a@x", "F1", true⟩
  unlockResult := .ok "unlockedKeyF1"
  fetchEnv := fenvSame
  keyResult := fun f => if f = "F1" then some "Couldn't find key" else none

/-- A stored join request made 8 days (192 hours) before `now = 192`. -/
def requestExpiredW : RequestToJoinTeam :=
  ⟨"req-1", "team-u9", "Kraken", "F5", "joiner@x", 0⟩

/-- A join environment holding only the 8-day-old request; the remote
service would still answer Forbidden, but that is never reached. -/
def jenvExpired : JoinEnv where
  requestsResult := .ok [requestExpiredW]
  now := 192
  loadPrivateKey := fun f => if f = "F5" then .ok "unlockedKeyF5" else .error "no key"
  getTeamRoster := fun _ _ => .forbidden
  loadTeam := fun _ _ => .error "unused"
  keyEnv := kenvW
  verifyRoster := fun _ _ _ => none
  teamDirectory := fun _ => .error "unused"
  saveRoster := fun _ _ _ => none
  deleteRequest := fun _ _ => none

/-- A stored join request made 2 hours before `now = 192`, still
pending. -/
def requestFreshW : RequestToJoinTeam :=
  ⟨"req-2", "team-u9", "Kraken", "F5", "joiner@x", 190⟩

/-- A join environment holding only the fresh request, with the remote
service answering Forbidden (the admin has not approved it yet). -/
def jenvForbidden : JoinEnv where
  requestsResult := .ok [requestFreshW]
  now := 192
  loadPrivateKey := fun f => if f = "F5" then .ok "unlockedKeyF5" else .error "no key"
  getTeamRoster := fun _ _ => .forbidden
  loadTeam := fun _ _ => .error "unused"
  keyEnv := kenvW
  verifyRoster := fun _ _ _ => none
  teamDirectory := fun _ => .error "unused"
  saveRoster := fun _ _ _ => none
  deleteRequest := fun _ _ => none

/-- If some admin in the list has an unresolvable key, the resolution
loop returns an error (and hence no key list). -/
theorem fetchAdminPublicKeysLoop_all_or_nothing (env : KeyEnv) :
    ∀ (people : List Person) (p : Person), p ∈ people →
      (∀ k, (discoverPublicKey env p.Fingerprint).1 ≠ .ok k) →
      ∃ e, (fetchAdminPublicKeysLoop env people).1 = .error e := by
  intro people
  induction people with
  | nil => intro p hp; exact absurd hp (List.not_mem_nil p)
  | cons q rest ih =>
    intro p hp hfail
    rcases List.mem_cons.mp hp with hq | hrest
    · subst hq
      unfold fetchAdminPublicKeysLoop
      rcases hdp : discoverPublicKey env p.Fingerprint with ⟨r, evs⟩
      cases r with
      | error e => exact ⟨e, by simp [hdp]⟩
      | ok k => exact absurd (by rw [hdp]) (hfail k)
    · rcases ih p hrest hfail with ⟨e, he⟩
      unfold fetchAdminPublicKeysLoop
      rcases hdq : discoverPublicKey env q.Fingerprint with ⟨r, evs⟩
      cases r with
      | error e2 => exact ⟨e2, by simp [hdq]⟩
      | ok k =>
        rcases hrec : fetchAdminPublicKeysLoop env rest with ⟨r2, evs2⟩
        cases r2 with
        | error e2 =>
          exact ⟨e2, by simp [hdq, hrec]⟩
        | ok keys =>
          rw [hrec] at he
          exact absurd he.symm (by simp)

/-- Claim C7: admin-key resolution tries the local keyring first (a
local hit performs no remote fetch), falls back to the remote fetch
exactly on local failure (failing with the "failed multiple attempts"
error when both paths fail), and is all-or-nothing: any admin whose key
resolves by neither path makes `fetchAdminPublicKeys` return an error
and no key list. -/
theorem adminKeyResolution_localFirst_allOrNothing (env : KeyEnv) :
    (∀ f k, env.loadPgpKey f = .ok k →
      discoverPublicKey env f = (.ok k, [.localLookup f])) ∧
    (∀ f e k, env.loadPgpKey f = .error e →
      env.getPublicKeyByFingerprint f = .ok k →
      discoverPublicKey env f = (.ok k, [.localLookup f, .remoteFetch f])) ∧
    (∀ f e e2, env.loadPgpKey f = .error e →
      env.getPublicKeyByFingerprint f = .error e2 →
      discoverPublicKey env f =
        (.error ("failed multiple attempts to find get public key for " ++ f),
         [.localLookup f, .remoteFetch f])) ∧
    (∀ (t : Team) (p : Person), p ∈ t.Admins →
      (∀ k, (discoverPublicKey env p.Fingerprint).1 ≠ .ok k) →
      ∃ e, (fetchAdminPublicKeys env t).1 = .error e) := by
  refine ⟨?_, ?_, ?_, ?_⟩
  · intro f k hl; unfold discoverPublicKey; rw [hl]
  · intro f e k hl hr; unfold discoverPublicKey; rw [hl, hr]
  · intro f e e2 hl hr; unfold discoverPublicKey; rw [hl, hr]
  · intro t p hp hfail
    exact fetchAdminPublicKeysLoop_all_or_nothing env t.Admins p hp hfail

/-- Witness for C7 at a concrete environment: a local hit stops at the
keyring, a local miss falls back to the remote fetch, a double miss
yields the combined error, and a team whose sole admin's key resolves by
neither path makes the whole resolution fail. -/
theorem adminKeyResolution_localFirst_allOrNothing_witness :
    discoverPublicKey kenvW "F1" = (.ok "localKeyF1", [.localLookup "F1"]) ∧
    discoverPublicKey kenvW "F2" =
      (.ok "remoteKeyF2", [.localLookup "F2", .remoteFetch "F2"]) ∧
    discoverPublicKey kenvW "F3" =
      (.error ("failed multiple attempts to find get public key for " ++ "F3"),
       [.localLookup "F3", .remoteFetch "F3"]) ∧
    ∃ e, (fetchAdminPublicKeys kenvW ⟨"u1", "Acme", [⟨"a@x", "F3", true⟩]⟩).1
          = .error e :=
  ⟨(adminKeyResolution_localFirst_allOrNothing kenvW).1 "F1" "localKeyF1" rfl,
   (adminKeyResolution_localFirst_allOrNothing kenvW).2.1 "F2" "not in gpg"
     "remoteKeyF2" rfl rfl,
   (adminKeyResolution_localFirst_allOrNothing kenvW).2.2.1 "F3" "not in gpg"
     "404" rfl rfl,
   (adminKeyResolution_localFirst_allOrNothing kenvW).2.2.2
     ⟨"u1", "Acme", [⟨"a@x", "F3", true⟩]⟩ ⟨"a@x", "F3", true⟩ (by decide)
     (fun k h => by simp [discoverPublicKey, kenvW] at h)⟩

/-- Claim C4: `ValidateUpdate` returns a non-nil error for every input
`(before, after, me)`: the signer-is-admin check `validateIAmAdmin`
unconditionally returns the "not implemented" error, so no roster update
can ever pass validation. -/
theorem validateUpdate_always_errors (before after : Team) (me : Person) :
    (∃ e, ValidateUpdate before after me = some e) ∧
    validateIAmAdmin before after me = some "not implemented" := by
  refine ⟨?_, rfl⟩
  unfold ValidateUpdate validateTeamUUID validateTeamNameCantChange validateIAmAdmin
  by_cases hu : before.UUID ≠ after.UUID
  · exact ⟨"can't change team UUID", by simp [hu]⟩
  · by_cases hn : before.Name ≠ after.Name
    · exact ⟨"can't change team name", by simp [hu, hn]⟩
    · exact ⟨"not implemented", by simp [hu, hn]⟩

/-- Claim C5: a UUID change is rejected with the distinct UUID error
(reported first even when the Name also differs, since the checks are
sequential and fail-fast), and a Name change with unchanged UUID is
rejected with the distinct Name error; exactly one error is returned in
each case. -/
theorem validateUpdate_immutable_fields (before after : Team) (me : Person) :
    (before.UUID ≠ after.UUID →
      ValidateUpdate before after me = some "can't change team UUID") ∧
    (before.UUID = after.UUID → before.Name ≠ after.Name →
      ValidateUpdate before after me = some "can't change team name") := by
  constructor
  · intro hu
    unfold ValidateUpdate validateTeamUUID
    simp [hu]
  · intro hu hn
    unfold ValidateUpdate validateTeamUUID validateTeamNameCantChange
    simp [hu, hn]

/-- Witness for C5 at concrete inputs: changing the UUID (here together
with the Name) yields the UUID error; changing only the Name yields the
Name error. -/
theorem validateUpdate_immutable_fields_witness :
    ValidateUpdate ⟨"u1", "Acme", []⟩ ⟨"u2", "Acme2", []⟩ ⟨"a@x", "F1", true⟩
        = some "can't change team UUID" ∧
    ValidateUpdate ⟨"u1", "Acme", []⟩ ⟨"u1", "Acme2", []⟩ ⟨"a@x", "F1", true⟩
        = some "can't change team name" :=
  ⟨(validateUpdate_immutable_fields ⟨"u1", "Acme", []⟩ ⟨"u2", "Acme2", []⟩
      ⟨"a@x", "F1", true⟩).1 (by decide),
   (validateUpdate_immutable_fields ⟨"u1", "Acme", []⟩ ⟨"u1", "Acme2", []⟩
      ⟨"a@x", "F1", true⟩).2 rfl (by decide)⟩

/-- Claim C9, evaluation at the failing input: an update whose `after`
team retains no admin (UUID and Name unchanged) is rejected with the
generic "not implemented" stub error from `validateIAmAdmin`, not with a
NoAdminRemaining error; the code never inspects `after.People`. -/
theorem validateUpdate_no_admin_floor :
    (Team.Admins ⟨"u1", "Acme", [⟨"b@x", "F2", false⟩]⟩ = []) ∧
    ValidateUpdate ⟨"u1", "Acme", [⟨"a@x", "F1", true⟩, ⟨"b@x", "F2", false⟩]⟩
        ⟨"u1", "Acme", [⟨"b@x", "F2", false⟩]⟩ ⟨"a@x", "F1", true⟩
      = some "not implemented" := by
  exact ⟨rfl, rfl⟩

/-- Claim C10, evaluation at the failing input: resubmitting a roster
bytewise-identical to a superseded version (here `after = before`, the
strongest form of a replay) is rejected only with the generic
"not implemented" stub error, not with a ReplayedRoster error;
`ValidateUpdate` takes no roster history at all, so no replay guard
exists. -/
theorem validateUpdate_no_replay_guard :
    ValidateUpdate ⟨"u7", "Blue", [⟨"c@x", "F3", true⟩]⟩
        ⟨"u7", "Blue", [⟨"c@x", "F3", true⟩]⟩ ⟨"c@x", "F3", true⟩
      = some "not implemented" := by
  exact rfl

/-- Claim C6: when the fetched roster is byte-equal to the locally
trusted roster, `fetchAndUpdateRoster` returns the existing team without
error and with an empty trace: no admin-key resolution, no signature
verification, and no write to the trusted roster store. -/
theorem fetchAndUpdateRoster_idempotent (env : FetchEnv) (t : Team)
    (roster signature : String)
    (hget : env.getTeamRoster = .ok roster signature)
    (hsame : env.rosterOf t = roster) :
    fetchAndUpdateRoster env t = (.ok t, []) := by
  simp [fetchAndUpdateRoster, hget, hsame]

/-- Witness for C6: in `fenvSame` the fetched roster equals the trusted
one, and the update is a no-op returning the existing team. -/
theorem fetchAndUpdateRoster_idempotent_witness :
    fetchAndUpdateRoster fenvSame teamW = (.ok teamW, []) :=
  fetchAndUpdateRoster_idempotent fenvSame teamW "roster-v1" "sig-v1" rfl rfl

/-- Claim C1: in `fetchAndUpdateRoster`, (a) if signature verification
of the fetched roster against the resolved admin keys fails, the
function returns an error and performs no write to the trusted roster
store, and (b) any write of a roster+signature to the trusted store is
of the fetched pair and happens only after admin-key resolution
succeeded and verification of exactly that pair returned no error. -/
theorem fetchAndUpdateRoster_verify_gates_save (env : FetchEnv) (t : Team) :
    (∀ roster signature keys e,
      env.getTeamRoster = .ok roster signature →
      env.rosterOf t ≠ roster →
      (fetchAdminPublicKeys env.keyEnv t).1 = .ok keys →
      env.verifyRoster roster signature keys = some e →
      fetchAndUpdateRoster env t =
        (.error ("couldn't validate signature on updated roster: " ++ e),
         [.resolveAdminKeys, .verify roster signature])) ∧
    (∀ roster signature,
      FetchEvent.save roster signature ∈ (fetchAndUpdateRoster env t).2 →
      env.getTeamRoster = .ok roster signature ∧
      ∃ keys, (fetchAdminPublicKeys env.keyEnv t).1 = .ok keys ∧
        env.verifyRoster roster signature keys = none) := by
  constructor
  · intro roster signature keys e hget hne hkeys hver
    simp [fetchAndUpdateRoster, hget, hne, hkeys, hver]
  · intro roster signature hsave
    cases hg : env.getTeamRoster with
    | forbidden => simp [fetchAndUpdateRoster, hg] at hsave
    | failed e2 => simp [fetchAndUpdateRoster, hg] at hsave
    | ok r s =>
      by_cases hr : env.rosterOf t = r
      · simp [fetchAndUpdateRoster, hg, hr] at hsave
      · cases hk : (fetchAdminPublicKeys env.keyEnv t).1 with
        | error e2 => simp [fetchAndUpdateRoster, hg, hr, hk] at hsave
        | ok keys =>
          cases hv : env.verifyRoster r s keys with
          | some e2 => simp [fetchAndUpdateRoster, hg, hr, hk, hv] at hsave
          | none =>
            have hrs : roster = r ∧ signature = s := by
              cases hd : env.teamDirectory t with
              | error e2 => simp [fetchAndUpdateRoster, hg, hr, hk, hv, hd] at hsave
              | ok dir =>
                cases hsv : env.saveRoster dir r s with
                | some e2 =>
                  simp [fetchAndUpdateRoster, hg, hr, hk, hv, hd, hsv] at hsave
                  exact hsave
                | none =>
                  cases hl : env.loadTeam r s with
                  | error e2 =>
                    simp [fetchAndUpdateRoster, hg, hr, hk, hv, hd, hsv, hl] at hsave
                    exact hsave
                  | ok u =>
                    simp [fetchAndUpdateRoster, hg, hr, hk, hv, hd, hsv, hl] at hsave
                    exact hsave
            obtain ⟨h1, h2⟩ := hrs
            subst h1; subst h2
            exact ⟨rfl, keys, rfl, hv⟩

/-- Witness for C1: in `fenvBadSig` the fetched roster differs from the
trusted one and its signature does not verify against the admin key
resolved via `kenvW`, so the update returns the verification error and
the trace contains no save. -/
theorem fetchAndUpdateRoster_verify_gates_save_witness :
    fetchAndUpdateRoster fenvBadSig teamW =
      (.error ("couldn't validate signature on updated roster: "
          ++ "openpgp: invalid signature"),
       [.resolveAdminKeys, .verify "roster-v2" "sig-v2"]) :=
  (fetchAndUpdateRoster_verify_gates_save fenvBadSig teamW).1
    "roster-v2" "sig-v2" ["localKeyF1"] "openpgp: invalid signature"
    rfl (by decide) rfl rfl

/-- Claim C8: when a pending (unexpired) request's roster fetch answers
Forbidden, the loop iteration leaves the `returnError` accumulator
unchanged (no error is added to the run's outcome) and its trace holds
only the roster fetch: the local request record is not deleted, so the
request remains pending for the next pass. -/
theorem processOneRequest_forbidden_keeps_pending (env : JoinEnv)
    (acc : Option String) (r : RequestToJoinTeam) (key : PgpKey)
    (hfresh : ¬ 168 < env.now - r.RequestedAt)
    (hload : env.loadPrivateKey r.Fingerprint = .ok key)
    (hforbidden : env.getTeamRoster key r.TeamUUID = .forbidden) :
    processOneRequest env acc r = (acc, [.fetchedRoster r.TeamUUID]) := by
  simp [processOneRequest, hfresh, hload, hforbidden]

/-- Witness for C8: a 2-hour-old request in `jenvForbidden`, where the
remote answers Forbidden, leaves a previously clean accumulator clean
and the request record in place. -/
theorem processOneRequest_forbidden_keeps_pending_witness :
    processOneRequest jenvForbidden none requestFreshW =
      (none, [.fetchedRoster "team-u9"]) :=
  processOneRequest_forbidden_keeps_pending jenvForbidden none requestFreshW
    "unlockedKeyF5" (by decide) rfl rfl

/-- Claim C2, evaluation at the failing input: in
`membershipKeyFailW` the first member's key fetch fails, yet
`fetchTeamKeys` returns the (nil) outcome of the last member only, so
`teamFetch` exits 0 - a single member's key-fetch failure does not make
the run report failure unless that member is the last one. -/
theorem teamFetch_masks_key_fetch_error :
    membershipKeyFailW.keyResult "F1" = some "Couldn't find key" ∧
    (⟨"a@x", "F1", true⟩ : Person) ∈ membershipKeyFailW.team.People ∧
    fetchTeamKeys membershipKeyFailW.team membershipKeyFailW.keyResult = none ∧
    teamFetch jenvEmpty [membershipKeyFailW] = 0 := by
  refine ⟨rfl, by decide, rfl, rfl⟩

/-- Claim C3, evaluation at the failing input: for the 8-day-old request
in `jenvExpired` the pass emits the expiry notice, deletes the local
record and fetches no roster, but returns a nil aggregate error: the
source's `returnError = err` in the expiry branch reads the nil
function-scope `err` of the earlier `user.RequestsToJoinTeams()` call,
so the expiry is not reported as an error. -/
theorem processRequests_expiry_deletes_but_reports_no_error :
    processRequestsToJoinTeam jenvExpired =
      (none, [.expiryNotice "team-u9", .deletedRequest "team-u9" "F5"]) ∧
    teamFetch jenvExpired [] = 0 := by
  exact ⟨rfl, rfl⟩
